import Mathlib

set_option maxHeartbeats 1000000
set_option maxRecDepth 4000

namespace Fugitive

/-!
Shallow embedding of the Fugitive3dServerRepository core: the srvrepo
address codec (ParseServerAddress / String / Validate), the in-memory
ServerRepository (Has / List / Register / Remove / Prune), the main.go
validateEntry input check, and the httpapi ServerController handlers
HandleRegister / HandleUpdate with the UDP ping/pong reachability probe.

Strings are modelled as lists of characters, Go byte slices (net.IP,
UDP datagrams) as lists of byte values, time.Time instants as integers
(LastSeen), and time.Duration as an integer in the same unit.
-/

deriving instance DecidableEq for Except

/-- Go net.IP value: a byte slice modelled as a list of byte values.
The empty list models Go's nil IP (which no operation distinguishes
from a zero-length slice). -/
abbrev GoIP := List Nat

/-- The canonical server identity string (srvrepo.ServerID). -/
abbrev ServerID := List Char

/-- The 12 leading bytes of an IPv4 address stored in the 16-byte form
that Go's net.IPv4 constructor produces. -/
def v4in6lead : GoIP := [0, 0, 0, 0, 0, 0, 0, 0, 0, 0, 255, 255]

/-- Go net.IPv4: the 16-byte form of the IPv4 address a.b.c.d. -/
def mkIPv4 (a b c d : Nat) : GoIP := v4in6lead ++ [a, b, c, d]

/-- Go net.isZeros. -/
def isZeros (p : GoIP) : Bool := p.all (fun b => b == 0)

/-- Go net.IP.To4: the 4-byte form when the address is an IPv4 address
(either 4-byte or 16-byte v4-mapped), the nil IP otherwise. -/
def ipTo4 (ip : GoIP) : GoIP :=
  if ip.length = 4 then ip
  else if ip.length = 16 ∧ isZeros (ip.take 10) = true ∧ ip.getD 10 0 = 255 ∧ ip.getD 11 0 = 255 then
    ip.drop 12
  else []

/-- Go net.IP.Equal: structural equality at equal lengths, and the
4-byte form equals its 16-byte v4-mapped counterpart. -/
def goIPEqual (ip x : GoIP) : Bool :=
  if ip.length = x.length then decide (ip = x)
  else if ip.length = 4 ∧ x.length = 16 then
    isZeros (x.take 10) && decide (x.getD 10 0 = 255 ∧ x.getD 11 0 = 255 ∧ ip = x.drop 12)
  else if ip.length = 16 ∧ x.length = 4 then
    isZeros (ip.take 10) && decide (ip.getD 10 0 = 255 ∧ ip.getD 11 0 = 255 ∧ ip.drop 12 = x)
  else false

/-- The character for a single decimal digit value. -/
def digitChar (n : Nat) : Char := Char.ofNat (48 + n)

/-- Decimal formatting of a nonnegative integer, most significant digit
first (Go's uitoa). The fuel of 20 matches the 20-byte buffer of the Go
source and covers every 64-bit value. -/
def uitoaAux : Nat → Nat → List Char → List Char
  | 0, _, acc => acc
  | fuel + 1, n, acc =>
    if n < 10 then digitChar n :: acc
    else uitoaAux fuel (n / 10) (digitChar (n % 10) :: acc)

/-- Go uitoa / strconv decimal formatting of a nonnegative value. -/
def uitoa (n : Nat) : List Char := uitoaAux 20 n []

/-- Go strconv.Itoa. -/
def itoa (n : Int) : List Char :=
  if n < 0 then '-' :: uitoa (-n).toNat else uitoa n.toNat

/-- The overflow bound of Go net's dtoi and xtoi (the constant big,
0xFFFFFF). -/
def dtoiBig : Nat := 16777215

/-- Go net.dtoi: reads a decimal number off the front of a string,
returning the value, the count of characters consumed, and a success
flag; fails on an empty digit run or on reaching the big bound. -/
def dtoiAux : List Char → Nat → Nat → Nat × Nat × Bool
  | [], n, i => if i = 0 then (0, 0, false) else (n, i, true)
  | c :: cs, n, i =>
    if 48 ≤ c.toNat ∧ c.toNat ≤ 57 then
      let n2 := n * 10 + (c.toNat - 48)
      if dtoiBig ≤ n2 then (dtoiBig, i, false)
      else dtoiAux cs n2 (i + 1)
    else if i = 0 then (0, 0, false) else (n, i, true)

/-- Go net.dtoi entry point. -/
def dtoi (s : List Char) : Nat × Nat × Bool := dtoiAux s 0 0

/-- The hexadecimal value of a character, if it is a hex digit. -/
def hexVal (c : Char) : Option Nat :=
  if 48 ≤ c.toNat ∧ c.toNat ≤ 57 then some (c.toNat - 48)
  else if 97 ≤ c.toNat ∧ c.toNat ≤ 102 then some (c.toNat - 97 + 10)
  else if 65 ≤ c.toNat ∧ c.toNat ≤ 70 then some (c.toNat - 65 + 10)
  else none

/-- Go net.xtoi: reads a hexadecimal number off the front of a string. -/
def xtoiAux : List Char → Nat → Nat → Nat × Nat × Bool
  | [], n, i => if i = 0 then (0, 0, false) else (n, i, true)
  | c :: cs, n, i =>
    match hexVal c with
    | none => if i = 0 then (0, 0, false) else (n, i, true)
    | some v =>
      let n2 := n * 16 + v
      if dtoiBig ≤ n2 then (0, i, false)
      else xtoiAux cs n2 (i + 1)

/-- Go net.xtoi entry point. -/
def xtoi (s : List Char) : Nat × Nat × Bool := xtoiAux s 0 0

/-- Go net.parseIPv4 field loop: parses the k remaining dot-separated
decimal fields; the flag marks the first field (no leading dot). -/
def parseIPv4Go : List Char → Nat → Bool → Option (List Nat)
  | s, 0, _ => if s = [] then some [] else none
  | s, k + 1, first =>
    if s = [] then none
    else
      match (if first then some s else
              match s with
              | c :: rest => if c = '.' then some rest else none
              | [] => none) with
      | none => none
      | some s2 =>
        match dtoi s2 with
        | (n, c, ok) =>
          if ok = false ∨ 255 < n then none
          else
            match parseIPv4Go (s2.drop c) k false with
            | none => none
            | some rest => some (n :: rest)

/-- Go net.parseIPv4: four decimal fields separated by dots, producing
the 16-byte v4-mapped form; nil on any malformation. -/
def parseIPv4 (s : List Char) : GoIP :=
  match parseIPv4Go s 4 true with
  | some [a, b, c, d] => mkIPv4 a b c d
  | _ => []

/-- Go net.parseIPv6 main loop: consumes hex groups (with at most one
ellipsis and an optional trailing IPv4 tail), accumulating bytes. The
fuel of 8 covers the at most eight 16-bit groups. Returns the bytes so
far, the ellipsis byte position, and the unconsumed input; none on
malformed input. -/
def parseIPv6Go : Nat → List Char → List Nat → Option Nat → Option (List Nat × Option Nat × List Char)
  | 0, s, bytes, ell => some (bytes, ell, s)
  | fuel + 1, s, bytes, ell =>
    if 16 ≤ bytes.length then some (bytes, ell, s)
    else
      match xtoi s with
      | (n, c, ok) =>
        if ok = false ∨ 65535 < n then none
        else if c < s.length ∧ s.getD c ' ' = '.' then
          if ell = none ∧ bytes.length ≠ 12 then none
          else if 16 < bytes.length + 4 then none
          else
            match parseIPv4 s with
            | [] => none
            | ip4 => some (bytes ++ ip4.drop 12, ell, [])
        else
          let bytes2 := bytes ++ [n / 256, n % 256]
          let s2 := s.drop c
          if s2 = [] then some (bytes2, ell, [])
          else if s2.headD ' ' ≠ ':' ∨ s2.length = 1 then none
          else
            let s3 := s2.drop 1
            if s3.headD ' ' = ':' then
              if ell.isSome then none
              else
                let s4 := s3.drop 1
                if s4 = [] then some (bytes2, some bytes2.length, [])
                else parseIPv6Go fuel s4 bytes2 (some bytes2.length)
            else parseIPv6Go fuel s3 bytes2 ell

/-- Post-processing of the parseIPv6 loop result: leftover input is an
error; a short result requires an ellipsis, expanded with zeros; a full
result must not also carry an ellipsis. -/
def parseIPv6Post : Option (List Nat × Option Nat × List Char) → GoIP
  | none => []
  | some (bytes, ell, sRem) =>
    if sRem ≠ [] then []
    else if bytes.length < 16 then
      match ell with
      | none => []
      | some e => bytes.take e ++ List.replicate (16 - bytes.length) 0 ++ bytes.drop e
    else if ell.isSome then [] else bytes

/-- Go net.parseIPv6: textual IPv6 form, with ellipsis expansion. -/
def parseIPv6 (s0 : List Char) : GoIP :=
  match s0 with
  | ':' :: ':' :: rest =>
    if rest = [] then List.replicate 16 0
    else parseIPv6Post (parseIPv6Go 8 rest [] (some 0))
  | _ => parseIPv6Post (parseIPv6Go 8 s0 [] none)

/-- The index of the last occurrence of a character (Go net.last). -/
def lastIndexOf : List Char → Char → Option Nat
  | [], _ => none
  | x :: xs, c =>
    match lastIndexOf xs c with
    | some j => some (j + 1)
    | none => if x = c then some 0 else none

/-- Go net.parseIPv6Zone: strips a zone suffix after the last percent
sign (when it has a nonempty host part) and parses the rest. -/
def parseIPv6Zone (s : List Char) : GoIP :=
  match lastIndexOf s '%' with
  | some i => if 0 < i then parseIPv6 (s.take i) else parseIPv6 s
  | none => parseIPv6 s

/-- Go net.ParseIP: dispatches on the first dot or colon; any other
string yields the nil IP. -/
def ParseIP (s : List Char) : GoIP :=
  match s.find? (fun c => c == '.' || c == ':') with
  | some c => if c = '.' then parseIPv4 s else parseIPv6Zone s
  | none => []

/-- The character for a hexadecimal digit value (lowercase). -/
def hexDigitChar (n : Nat) : Char :=
  Char.ofNat (if n < 10 then 48 + n else 87 + n)

/-- Hexadecimal formatting without leading zeros (Go net appendHex on a
16-bit group; fuel 8 covers 32-bit values). -/
def uitoxAux : Nat → Nat → List Char → List Char
  | 0, _, acc => acc
  | fuel + 1, n, acc =>
    if n < 16 then hexDigitChar n :: acc
    else uitoxAux fuel (n / 16) (hexDigitChar (n % 16) :: acc)

/-- Hex form of one 16-bit group. -/
def uitox (n : Nat) : List Char := uitoxAux 8 n []

/-- Go net hexString: two hex digits per byte. -/
def hexString (b : List Nat) : List Char :=
  b.foldl (fun acc x => acc ++ [hexDigitChar (x / 16 % 16), hexDigitChar (x % 16)]) []

/-- The 16-bit group starting at byte index i of a 16-byte IPv6 value. -/
def grpAt (p : List Nat) (i : Nat) : Nat := p.getD i 0 * 256 + p.getD (i + 1) 0

/-- Length (in groups) of the zero-group run starting at group index i. -/
def zeroRunLenAux (p : List Nat) : Nat → Nat → Nat
  | 0, _ => 0
  | fuel + 1, i => if i < 8 ∧ grpAt p (2 * i) = 0 then 1 + zeroRunLenAux p fuel (i + 1) else 0

/-- Zero-run length at a group index. -/
def zeroRunLen (p : List Nat) (i : Nat) : Nat := zeroRunLenAux p 8 i

/-- First longest run of at least two zero groups, as byte indices
(start, end exclusive), mirroring the e0/e1 computation of Go's
net.IP.String for IPv6 values. -/
def bestZeroRun (p : List Nat) : Option (Nat × Nat) :=
  let best := (List.range 8).foldl
    (fun acc i => if acc.2 < zeroRunLen p i then (i, zeroRunLen p i) else acc) (0, 0)
  if 2 ≤ best.2 then some (2 * best.1, 2 * (best.1 + best.2)) else none

/-- Group printing loop of Go's IPv6 String, with the double colon at
the elided run. -/
def ipv6StringAux (p : List Nat) : Nat → Nat → Option (Nat × Nat) → List Char → List Char
  | 0, _, _, acc => acc
  | fuel + 1, i, er, acc =>
    if 16 ≤ i then acc
    else
      match er with
      | some (e0, e1) =>
        if i = e0 then
          let acc2 := acc ++ [':', ':']
          if 16 ≤ e1 then acc2
          else ipv6StringAux p fuel (e1 + 2) er (acc2 ++ uitox (grpAt p e1))
        else
          ipv6StringAux p fuel (i + 2) er ((if 0 < i then acc ++ [':'] else acc) ++ uitox (grpAt p i))
      | none =>
        ipv6StringAux p fuel (i + 2) er ((if 0 < i then acc ++ [':'] else acc) ++ uitox (grpAt p i))

/-- Textual form of a 16-byte IPv6 value. -/
def ipv6String (p : List Nat) : List Char := ipv6StringAux p 9 0 (bestZeroRun p) []

/-- Go net.IP.String: angle-bracket nil marker for the nil IP, dotted
decimal for IPv4 values, colon-separated hex for 16-byte values, and a
question mark with raw hex otherwise. -/
def ipString (p : GoIP) : List Char :=
  if p.length = 0 then "<nil>".data
  else if (ipTo4 p).length = 4 then
    uitoa ((ipTo4 p).getD 0 0) ++ '.' :: uitoa ((ipTo4 p).getD 1 0) ++
      '.' :: uitoa ((ipTo4 p).getD 2 0) ++ '.' :: uitoa ((ipTo4 p).getD 3 0)
  else if p.length ≠ 16 then '?' :: hexString p
  else ipv6String p

/-- Go net.SplitHostPort: splits at the last colon, with bracket
handling for IPv6 hosts. Error messages are abbreviated. -/
def SplitHostPort (hp : List Char) : Except (List Char) (List Char × List Char) :=
  match lastIndexOf hp ':' with
  | none => .error "missing port in address".data
  | some i =>
    if hp.headD ' ' = '[' then
      match hp.findIdx? (fun c => c == ']') with
      | none => .error "missing close bracket in address".data
      | some e =>
        if e + 1 = hp.length then .error "missing port in address".data
        else if e + 1 = i then
          if '[' ∈ hp.drop 1 then .error "unexpected open bracket in address".data
          else if ']' ∈ hp.drop (e + 1) then .error "unexpected close bracket in address".data
          else .ok ((hp.drop 1).take (e - 1), hp.drop (i + 1))
        else
          if hp.getD (e + 1) ' ' = ':' then .error "too many colons in address".data
          else .error "missing port in address".data
    else
      if ':' ∈ hp.take i then .error "too many colons in address".data
      else if '[' ∈ hp then .error "unexpected open bracket in address".data
      else if ']' ∈ hp then .error "unexpected close bracket in address".data
      else .ok (hp.take i, hp.drop (i + 1))

/-- Go net.JoinHostPort: brackets the host when it contains a colon. -/
def JoinHostPort (host port : List Char) : List Char :=
  if ':' ∈ host then '[' :: host ++ ']' :: ':' :: port
  else host ++ ':' :: port

/-- The largest Go int (64-bit) value. -/
def maxInt64 : Nat := 9223372036854775807

/-- Go strconv.Atoi: optional sign, then decimal digits only; errors on
empty input, a stray character, or 64-bit overflow (messages
abbreviated). The value returned alongside a Go range error is never
consumed by this program, so errors carry no value here. -/
def Atoi (s : List Char) : Except (List Char) Int :=
  match s with
  | [] => .error "invalid syntax".data
  | c :: rest =>
    let digits := if c = '-' ∨ c = '+' then rest else s
    if digits = [] then .error "invalid syntax".data
    else if digits.all (fun d => 48 ≤ d.toNat ∧ d.toNat ≤ 57) then
      let n := digits.foldl (fun a d => a * 10 + (d.toNat - 48)) 0
      if c = '-' then
        if maxInt64 + 1 < n then .error "value out of range".data else .ok (-(n : Int))
      else
        if maxInt64 < n then .error "value out of range".data else .ok (n : Int)
    else .error "invalid syntax".data

/-- srvrepo.ServerAddress: a claimed IP and port. -/
structure ServerAddress where
  IP : GoIP
  Port : Int
deriving DecidableEq, Repr, Inhabited

/-- srvrepo.ParseServerAddress: splits host and port; the host is
parsed with ParseIP and its failure (nil IP) is NOT an error; a
non-numeric port is. -/
def ParseServerAddress (s : List Char) : Except (List Char) ServerAddress :=
  match SplitHostPort s with
  | .error e => .error e
  | .ok (rawIP, rawPort) =>
    match Atoi rawPort with
    | .error e => .error ("invalid port number with err: ".data ++ e)
    | .ok port => .ok { IP := ParseIP rawIP, Port := port }

/-- srvrepo.ServerAddress.String: the canonical ip:port form. -/
def ServerAddress.String (a : ServerAddress) : List Char :=
  JoinHostPort (ipString a.IP) (itoa a.Port)

/-- Valid port range bounds (srvrepo internal constants). -/
def portRangeMin : Int := 1024

/-- Valid port range upper bound. -/
def portRangeMax : Int := 65535

/-- srvrepo.ServerAddress.Validate: IPv4-representable IP and in-range
port. -/
def ServerAddress.Validate (a : ServerAddress) : Except (List Char) Unit :=
  if ipTo4 a.IP = [] then .error "IP is not a valid IPv4 address".data
  else if a.Port < portRangeMin ∨ portRangeMax < a.Port then
    .error "port is not within the valid port range of 1024-65535".data
  else .ok ()

/-- Name length bounds (srvrepo internal constants). -/
def nameLengthMin : Nat := 3

/-- Name length upper bound. -/
def nameLengthMax : Nat := 32

/-- Go strings.TrimSpace on our character lists. -/
def trimSpace (s : List Char) : List Char :=
  ((s.dropWhile Char.isWhitespace).reverse.dropWhile Char.isWhitespace).reverse

/-- srvrepo.Server: address identity plus registration payload. The
LastSeen jsonTime is an integer instant. -/
structure Server where
  ServerAddress : ServerAddress
  Name : List Char
  GameVersion : Int
  IsJoinable : Bool
  LastSeen : Int
deriving DecidableEq, Repr, Inhabited

/-- srvrepo.Server.ID: the canonical address string. -/
def Server.ID (s : Server) : ServerID := s.ServerAddress.String

/-- srvrepo.Server.Seen: refreshes LastSeen to the current instant. -/
def Server.Seen (s : Server) (now : Int) : Server := { s with LastSeen := now }

/-- srvrepo.Server.Validate: validates the address, then trims the name
in place (the Go receiver is a pointer, so the trim persists) and
checks its length; returns the normalized server on success. -/
def Server.Validate (s : Server) : Except (List Char) Server :=
  match s.ServerAddress.Validate with
  | .error e => .error e
  | .ok _ =>
    let name := trimSpace s.Name
    if name.length < nameLengthMin ∨ nameLengthMax < name.length then
      .error "name length must be within range of 3-32".data
    else .ok { s with Name := name }

/-- The in-memory ServerRepository map, modelled as an association list
with map semantics (at most one binding per key in every reachable
state). -/
abbrev Repo := List (ServerID × Server)

/-- Go map lookup servers[id]. -/
def lookupSrv (r : Repo) (id : ServerID) : Option Server :=
  match r.find? (fun p => p.1 == id) with
  | some p => some p.2
  | none => none

/-- ServerRepository.Has: the comma-ok existence check. -/
def Has (r : Repo) (id : ServerID) : Bool := (lookupSrv r id).isSome

/-- ServerRepository.List: the values of the map. -/
def ListServers (r : Repo) : List Server := r.map (fun p => p.2)

/-- ServerRepository.Register: a comma-ok check followed by the map
assignment servers[id] = srv (replace the binding if the key is
present, append it otherwise); the Go error result is always nil. -/
def Register (r : Repo) (srv : Server) : Bool × Repo :=
  let id := srv.ID
  let alreadyExists := Has r id
  (alreadyExists,
   if alreadyExists then r.map (fun p => if p.1 == id then (id, srv) else p)
   else r ++ [(id, srv)])

/-- ServerRepository.Remove: a comma-ok check followed by delete. -/
def Remove (r : Repo) (id : ServerID) : Bool × Repo :=
  (Has r id, r.filter (fun p => !(p.1 == id)))

/-- ServerRepository.Prune: deletes every server whose LastSeen is
strictly before now minus the threshold (time.Time.Before). -/
def Prune (r : Repo) (threshold now : Int) : Repo :=
  r.filter (fun p => !decide (p.2.LastSeen < now - threshold))

/-- A repository operation, for stating invariants over arbitrary
operation sequences. Prune carries the instant at which it runs. -/
inductive Op where
  | register (srv : Server)
  | remove (id : ServerID)
  | prune (threshold now : Int)
deriving DecidableEq, Repr

/-- Apply one operation to the store. -/
def applyOp (r : Repo) : Op → Repo
  | .register srv => (Register r srv).2
  | .remove id => (Remove r id).2
  | .prune th now => Prune r th now

/-- Run a sequence of operations. -/
def runOps (r : Repo) (ops : List Op) : Repo := ops.foldl applyOp r

/-- The store's identity-uniqueness invariant: no two bindings share a
key. -/
def keysNodup (r : Repo) : Prop := (r.map Prod.fst).Nodup

instance (r : Repo) : Decidable (keysNodup r) := List.nodupDecidable _

/-- Whether a prune operation would evict the binding of an identity. -/
def evicts (r : Repo) (id : ServerID) (th now : Int) : Bool :=
  match lookupSrv r id with
  | some srv => decide (srv.LastSeen < now - th)
  | none => false

/-- One operation neither removes nor prune-evicts the identity. -/
def opSafe (r : Repo) (id : ServerID) : Op → Bool
  | .register _ => true
  | .remove rid => !(rid == id)
  | .prune th now => !(evicts r id th now)

/-- No operation of the sequence removes or prune-evicts the identity,
relative to the evolving store. -/
def noRemovalOf : Repo → List Op → ServerID → Bool
  | _, [], _ => true
  | r, op :: ops, id => opSafe r id op && noRemovalOf (applyOp r op) ops id

/-- main.go verifyIP: any parseable IPv4 address. -/
def verifyIP (ip : List Char) : Bool := !((ipTo4 (ParseIP ip)).length ≠ 4)

/-- main.go verifyPort: numeric and within 1024-65535. -/
def verifyPort (port : List Char) : Bool :=
  match Atoi port with
  | .ok n => if 1024 > n ∨ n > 65535 then false else true
  | .error _ => false

/-- main.go cleanName. -/
def cleanName (servername : List Char) : List Char := trimSpace servername

/-- main.go validateEntry, with the transport-observed source IP passed
in place of the gin context: source match first, then name length, then
source-IP wellformedness and payload port range. -/
def validateEntry (sourceIP jname jip jport : List Char) : Bool :=
  if sourceIP ≠ jip then false
  else
    let a := cleanName jname
    if 3 > a.length ∨ a.length > 32 then false
    else
      let b := verifyIP sourceIP
      let c := verifyPort jport
      if !b ∨ !c then false else true

/-- One gin ctx.JSON call: transport status and result message. A
handler run yields the list of such calls, in order (the Go code keeps
running after some error responses, so more than one can occur). -/
structure HttpResp where
  status : Nat
  result : List Char
deriving DecidableEq, Repr

/-- Outcome of the UDP reachability probe as the handler observes it:
net.DialUDP failed, the deadline-bounded read failed (no datagram in
time), or a datagram with the given bytes arrived. -/
inductive ProbeResult where
  | dialFailed
  | readFailed
  | response (data : List Nat)
deriving DecidableEq, Repr

/-- Bytes of the probe challenge string. -/
def pingBytes : List Nat := [112, 105, 110, 103]

/-- Bytes of the expected probe acknowledgement string. -/
def pongBytes : List Nat := [112, 111, 110, 103]

/-- The first four bytes of the handler's 8-byte zero-initialized read
buffer after a datagram is read into it (readBuff[0:4]). -/
def readResponse (data : List Nat) : List Nat :=
  (data.take 8 ++ List.replicate (8 - (data.take 8).length) 0).take 4

/-- The Go zero value of srvrepo.Server, left behind when the request
body fails to decode. -/
def zeroServer : Server :=
  { ServerAddress := { IP := [], Port := 0 }
  , Name := [], GameVersion := 0, IsJoinable := false, LastSeen := 0 }

/-- The requestAddr of the handlers: ParseServerAddress of the remote
address, with the error blank-discarded (the zero address remains). -/
def requestAddrOf (remoteAddr : List Char) : ServerAddress :=
  match ParseServerAddress remoteAddr with
  | .ok a => a
  | .error _ => { IP := [], Port := 0 }

/-- httpapi ServerController.HandleUpdate: decode the body (writing a
400 but continuing on bad JSON), parse the server_id URL parameter,
overwrite the payload address with it, refresh LastSeen, validate,
enforce the source-IP match, then Register. The Has result that the Go
code stores first is discarded (overwritten by Register's flag), and
Register's error is always nil, so the 500 branch is dead. -/
def HandleUpdate (repo : Repo) (serverIdParam remoteAddr : List Char)
    (body : Except (List Char) Server) (now : Int) : List HttpResp × Repo :=
  let requestAddr := requestAddrOf remoteAddr
  let jsonResps : List HttpResp :=
    match body with
    | .ok _ => []
    | .error _ => [⟨400, "invalid request JSON".data⟩]
  let serverData0 := match body with
    | .ok s => s
    | .error _ => zeroServer
  match ParseServerAddress serverIdParam with
  | .error _ => (jsonResps ++ [⟨400, "invalid server ID".data⟩], repo)
  | .ok serverAddr =>
    let serverData1 := { serverData0 with ServerAddress := serverAddr, LastSeen := now }
    match serverData1.Validate with
    | .error e => (jsonResps ++ [⟨400, e⟩], repo)
    | .ok serverData2 =>
      if !goIPEqual serverData2.ServerAddress.IP requestAddr.IP then
        (jsonResps ++ [⟨403, "request IP address does not match client IP address".data⟩], repo)
      else
        let reg := Register repo serverData2
        if reg.1 then (jsonResps ++ [⟨202, "updated".data⟩], reg.2)
        else (jsonResps ++ [⟨201, "registered".data⟩], reg.2)

/-- The body of the pong branch of httpapi HandleRegister: decode the
body (400 but continue on bad JSON), overwrite the address with the URL
parameter, refresh LastSeen, validate, enforce the source-IP match,
then Register (error always nil) and answer 200. -/
def HandleRegisterPong (repo : Repo) (serverAddr : ServerAddress) (remoteAddr : List Char)
    (body : Except (List Char) Server) (now : Int) : List HttpResp × Repo :=
  let jsonResps : List HttpResp :=
    match body with
    | .ok _ => []
    | .error _ => [⟨400, "invalid request JSON".data⟩]
  let serverData0 := match body with
    | .ok s => s
    | .error _ => zeroServer
  let serverData1 := { serverData0 with ServerAddress := serverAddr, LastSeen := now }
  match serverData1.Validate with
  | .error e => (jsonResps ++ [⟨400, e⟩], repo)
  | .ok serverData2 =>
    let requestAddr := requestAddrOf remoteAddr
    if !goIPEqual serverData2.ServerAddress.IP requestAddr.IP then
      (jsonResps ++ [⟨403, "request IP address does not match client IP address".data⟩], repo)
    else
      (jsonResps ++ [⟨200, "registration complete".data⟩], (Register repo serverData2).2)

/-- httpapi ServerController.HandleRegister (the probing variant):
parse the server_id parameter (406 on failure); delegate to
HandleUpdate for an already-known identity; otherwise run the UDP
probe: a dial failure hits glog.Fatal (process exit) before its 412
response, a read failure answers 504, a datagram whose first four
buffer bytes differ from pong answers 406, and a pong acknowledgement
proceeds to the registration body. -/
def HandleRegister (repo : Repo) (serverIdParam remoteAddr : List Char)
    (body : Except (List Char) Server) (now : Int) (probe : ProbeResult) : List HttpResp × Repo :=
  match ParseServerAddress serverIdParam with
  | .error _ => ([⟨406, "invalid server ID".data⟩], repo)
  | .ok serverAddr =>
    if Has repo serverAddr.String then
      HandleUpdate repo serverIdParam remoteAddr body now
    else
      match probe with
      | .dialFailed => ([⟨412, "Repository could not ping you.".data⟩], repo)
      | .readFailed => ([⟨504, "no ping response received, is your port not properly forwarded?".data⟩], repo)
      | .response data =>
        if readResponse data = pongBytes then
          HandleRegisterPong repo serverAddr remoteAddr body now
        else
          ([⟨406, "Bad ping response".data⟩], repo)

/-- Sample address 10.0.0.5:30000 in canonical 16-byte form. -/
def addrA : ServerAddress := { IP := mkIPv4 10 0 0 5, Port := 30000 }

/-- Sample address 10.0.0.6:30000 in canonical 16-byte form. -/
def addrB : ServerAddress := { IP := mkIPv4 10 0 0 6, Port := 30000 }

/-- Sample address 1.2.3.4:8080 in the 4-byte representation. -/
def addr4byte : ServerAddress := { IP := [1, 2, 3, 4], Port := 8080 }

/-- Sample server at addrA, stale at instant 10000 for threshold 1000
(LastSeen = now - 2 * threshold). -/
def srvA : Server :=
  { ServerAddress := addrA, Name := "My Server".data, GameVersion := 3
  , IsJoinable := true, LastSeen := 8000 }

/-- Re-registration of srvA with changed fields. -/
def srvA2 : Server :=
  { srvA with Name := "Renamed".data, IsJoinable := false, LastSeen := 9600 }

/-- Sample server at addrB, fresh at instant 10000 for threshold 1000
(LastSeen = now - threshold / 4). -/
def srvB : Server :=
  { ServerAddress := addrB, Name := "Fresh One".data, GameVersion := 3
  , IsJoinable := true, LastSeen := 9750 }

/-- A server whose LastSeen sits exactly on the prune cutoff
now - threshold for now = 10000, threshold = 1000. -/
def srvEdge : Server :=
  { ServerAddress := addrB, Name := "Edge Case".data, GameVersion := 1
  , IsJoinable := false, LastSeen := 9000 }

/-- Sample two-server store. -/
def repoAB : Repo := [(srvA.ID, srvA), (srvB.ID, srvB)]

/-- Sample payload with a too-short name (fails field validation). -/
def srvBadName : Server :=
  { ServerAddress := { IP := [], Port := 0 }, Name := "ab".data, GameVersion := 1
  , IsJoinable := true, LastSeen := 0 }

/-- Sample payload with a valid name. -/
def srvGoodName : Server :=
  { ServerAddress := { IP := [], Port := 0 }, Name := "Good Server".data, GameVersion := 1
  , IsJoinable := true, LastSeen := 0 }

/-- The dotted-decimal text of four octets, as net.IP.String prints an
IPv4 address. -/
def dottedQuad (o1 o2 o3 o4 : Nat) : List Char :=
  uitoa o1 ++ '.' :: (uitoa o2 ++ '.' :: (uitoa o3 ++ '.' :: uitoa o4))

/-- A string that does not start with a decimal digit. -/
def headNotDigit (l : List Char) : Prop :=
  l = [] ∨ ∃ c cs, l = c :: cs ∧ ¬(48 ≤ c.toNat ∧ c.toNat ≤ 57)

/-! ### Association-list map lemmas -/

theorem lookupSrv_cons (p : ServerID × Server) (r : Repo) (id : ServerID) :
    lookupSrv (p :: r) id = if p.1 = id then some p.2 else lookupSrv r id := by
  by_cases h : p.1 = id
  · simp [lookupSrv, List.find?, h]
  · have hb : (p.1 == id) = false := beq_eq_false_iff_ne.mpr h
    simp [lookupSrv, List.find?, hb, h]

theorem lookupSrv_eq_none (r : Repo) (id : ServerID) :
    lookupSrv r id = none ↔ ∀ p ∈ r, p.1 ≠ id := by
  induction r with
  | nil => simp [lookupSrv]
  | cons p r ih => by_cases h : p.1 = id <;> simp [lookupSrv_cons, h, ih]

theorem lookupSrv_mem {r : Repo} {id : ServerID} {srv : Server}
    (h : lookupSrv r id = some srv) : (id, srv) ∈ r := by
  induction r with
  | nil => simp [lookupSrv] at h
  | cons p r ih =>
    rw [lookupSrv_cons] at h
    by_cases hp : p.1 = id
    · simp only [hp, if_pos] at h
      have hpe : p = (id, srv) := by
        cases p with
        | mk a b => simp_all
      exact hpe ▸ List.mem_cons_self _ _
    · exact List.mem_cons_of_mem _ (ih (by simpa [hp] using h))

theorem mem_lookupSrv_of_nodup {r : Repo} (hnd : keysNodup r) {id : ServerID} {srv : Server}
    (h : (id, srv) ∈ r) : lookupSrv r id = some srv := by
  induction r with
  | nil => simp at h
  | cons p r ih =>
    rw [keysNodup, List.map_cons, List.nodup_cons] at hnd
    rcases List.mem_cons.mp h with h | h
    · rw [← h, lookupSrv_cons]
      simp
    · have hp : p.1 ≠ id := by
        intro he
        exact hnd.1 (he ▸ List.mem_map_of_mem Prod.fst h)
      rw [lookupSrv_cons, if_neg hp]
      exact ih hnd.2 h

theorem Has_iff_mem_keys (r : Repo) (id : ServerID) :
    Has r id = true ↔ id ∈ r.map Prod.fst := by
  induction r with
  | nil => simp [Has, lookupSrv]
  | cons p r ih =>
    rw [Has] at ih ⊢
    have hcomm : id = p.1 ↔ p.1 = id := eq_comm
    by_cases hp : p.1 = id <;>
      simp [lookupSrv_cons, hp, ih, hcomm]

/-! ### Register lemmas -/

theorem Register_fst (r : Repo) (srv : Server) : (Register r srv).1 = Has r srv.ID := rfl

theorem Register_snd_of_has {r : Repo} {srv : Server} (h : Has r srv.ID = true) :
    (Register r srv).2 = r.map (fun p => if p.1 == srv.ID then (srv.ID, srv) else p) := by
  simp [Register, h]

theorem Register_snd_of_not_has {r : Repo} {srv : Server} (h : Has r srv.ID = false) :
    (Register r srv).2 = r ++ [(srv.ID, srv)] := by
  simp [Register, h]

theorem map_fst_mapReplace (r : Repo) (id : ServerID) (srv : Server) :
    (r.map (fun p => if p.1 == id then (id, srv) else p)).map Prod.fst = r.map Prod.fst := by
  induction r with
  | nil => rfl
  | cons p r ih =>
    rw [List.map_cons, List.map_cons, List.map_cons, ih]
    by_cases hp : p.1 = id
    · rw [if_pos (show (p.1 == id) = true by simpa using hp), hp]
    · rw [if_neg (show ¬ (p.1 == id) = true by simpa using hp)]

theorem lookup_mapReplace (id : ServerID) (srv : Server) :
    ∀ r : Repo, Has r id = true →
      lookupSrv (r.map (fun p => if p.1 == id then (id, srv) else p)) id = some srv := by
  intro r
  induction r with
  | nil => intro h; simp [Has, lookupSrv] at h
  | cons p r ih =>
    intro h
    by_cases hp : p.1 = id
    · simp [hp, lookupSrv_cons]
    · rw [List.map_cons, if_neg (by simpa using hp), lookupSrv_cons, if_neg hp]
      rw [Has, lookupSrv_cons, if_neg hp] at h
      exact ih h

theorem lookup_mapReplace_other {id id2 : ServerID} (srv : Server) (hne : id2 ≠ id) :
    ∀ r : Repo,
      lookupSrv (r.map (fun p => if p.1 == id then (id, srv) else p)) id2 = lookupSrv r id2 := by
  intro r
  induction r with
  | nil => rfl
  | cons p r ih =>
    rw [List.map_cons, lookupSrv_cons, lookupSrv_cons]
    by_cases hp : p.1 = id
    · rw [if_pos (show (p.1 == id) = true by simpa using hp)]
      rw [if_neg (show ¬ ((id, srv) : ServerID × Server).1 = id2 from fun he => hne he.symm)]
      rw [if_neg (show ¬ p.1 = id2 from fun he => hne (he ▸ hp))]
      exact ih
    · rw [if_neg (show ¬ (p.1 == id) = true by simpa using hp)]
      by_cases hq : p.1 = id2
      · rw [if_pos hq, if_pos hq]
      · rw [if_neg hq, if_neg hq]
        exact ih

theorem lookup_append_sing_other {id kid : ServerID} (srv : Server) (hne : id ≠ kid) :
    ∀ r : Repo, lookupSrv (r ++ [(kid, srv)]) id = lookupSrv r id := by
  intro r
  induction r with
  | nil =>
    show lookupSrv ((kid, srv) :: []) id = lookupSrv [] id
    rw [lookupSrv_cons, if_neg (show ¬ kid = id from fun he => hne he.symm)]
  | cons p r ih =>
    rw [List.cons_append, lookupSrv_cons, lookupSrv_cons]
    by_cases hq : p.1 = id
    · rw [if_pos hq, if_pos hq]
    · rw [if_neg hq, if_neg hq]
      exact ih

theorem lookup_register_other {r : Repo} {srv : Server} {id : ServerID} (hne : id ≠ srv.ID) :
    lookupSrv (Register r srv).2 id = lookupSrv r id := by
  by_cases hh : Has r srv.ID
  · rw [Register_snd_of_has hh]
    exact lookup_mapReplace_other srv hne r
  · rw [Register_snd_of_not_has (by simpa using hh)]
    exact lookup_append_sing_other srv hne r

/-! ### Nodup preservation -/

theorem keysNodup_register {r : Repo} (hnd : keysNodup r) (srv : Server) :
    keysNodup (Register r srv).2 := by
  by_cases h : Has r srv.ID
  · rw [Register_snd_of_has h, keysNodup, map_fst_mapReplace]
    exact hnd
  · rw [Register_snd_of_not_has (by simpa using h), keysNodup, List.map_append]
    rw [List.nodup_append]
    refine ⟨hnd, by simp, ?_⟩
    intro a ha hb
    simp only [List.map_cons, List.map_nil, List.mem_singleton] at hb
    rw [hb] at ha
    exact h ((Has_iff_mem_keys r srv.ID).mpr ha)

theorem keysNodup_filter {r : Repo} (hnd : keysNodup r) (q : ServerID × Server → Bool) :
    keysNodup (r.filter q) := by
  have hsub : List.Sublist ((r.filter q).map Prod.fst) (r.map Prod.fst) :=
    (List.filter_sublist r).map Prod.fst
  exact hnd.sublist hsub

theorem keysNodup_applyOp {r : Repo} (hnd : keysNodup r) (op : Op) :
    keysNodup (applyOp r op) := by
  cases op with
  | register srv => exact keysNodup_register hnd srv
  | remove id => exact keysNodup_filter hnd _
  | prune th now => exact keysNodup_filter hnd _

theorem keysNodup_runOps : ∀ (ops : List Op) (r : Repo), keysNodup r → keysNodup (runOps r ops)
  | [], _, hnd => hnd
  | op :: ops, r, hnd => keysNodup_runOps ops (applyOp r op) (keysNodup_applyOp hnd op)

/-! ### Filter and lookup -/

theorem lookup_filter_of_lookup {r : Repo} {id : ServerID} {srv : Server}
    {q : ServerID × Server → Bool}
    (hl : lookupSrv r id = some srv) (hq : q (id, srv) = true) :
    lookupSrv (r.filter q) id = some srv := by
  induction r with
  | nil => simp [lookupSrv] at hl
  | cons p r ih =>
    rw [lookupSrv_cons] at hl
    by_cases hp : p.1 = id
    · rw [if_pos hp] at hl
      have hpe : p = (id, srv) := by
        cases p with
        | mk a b => simp_all
      rw [List.filter_cons, hpe, if_pos (by simp [hq]), lookupSrv_cons]
      simp
    · rw [if_neg hp] at hl
      rw [List.filter_cons]
      by_cases hqp : q p = true
      · rw [if_pos (by simp [hqp]), lookupSrv_cons, if_neg hp]
        exact ih hl
      · rw [if_neg (by simp [hqp])]
        exact ih hl

theorem lookup_filter_iff {r : Repo} (hnd : keysNodup r) {id : ServerID} {srv : Server}
    (q : ServerID × Server → Bool) :
    lookupSrv (r.filter q) id = some srv ↔ lookupSrv r id = some srv ∧ q (id, srv) = true := by
  constructor
  · intro h
    have hmem : (id, srv) ∈ r.filter q := lookupSrv_mem h
    exact ⟨mem_lookupSrv_of_nodup hnd (List.mem_of_mem_filter hmem), List.of_mem_filter hmem⟩
  · rintro ⟨h1, h2⟩
    exact lookup_filter_of_lookup h1 h2

/-! ### Presence preservation under safe operations -/

theorem has_of_lookup {r : Repo} {id : ServerID} {srv : Server}
    (h : lookupSrv r id = some srv) : Has r id = true := by
  rw [Has, h]
  rfl

theorem has_applyOp_of_safe {r : Repo} {id : ServerID} {op : Op}
    (h : Has r id = true) (hs : opSafe r id op = true) :
    Has (applyOp r op) id = true := by
  cases op with
  | register srv =>
    by_cases he : srv.ID = id
    · subst he
      rw [applyOp, Register_snd_of_has h]
      exact has_of_lookup (lookup_mapReplace srv.ID srv r h)
    · rw [applyOp, Has, lookup_register_other (show id ≠ srv.ID from fun hc => he hc.symm)]
      exact h
  | remove rid =>
    rw [opSafe, Bool.not_eq_true', beq_eq_false_iff_ne] at hs
    rw [Has, Option.isSome_iff_exists] at h
    obtain ⟨srv0, h0⟩ := h
    exact has_of_lookup (lookup_filter_of_lookup h0 (by simpa using Ne.symm hs))
  | prune th now =>
    rw [opSafe, Bool.not_eq_true'] at hs
    rw [Has, Option.isSome_iff_exists] at h
    obtain ⟨srv0, h0⟩ := h
    rw [evicts, h0, decide_eq_false_iff_not] at hs
    exact has_of_lookup (lookup_filter_of_lookup h0 (by simpa using hs))

theorem lookup_append_self (srv : Server) :
    ∀ r : Repo, Has r srv.ID = false →
      lookupSrv (r ++ [(srv.ID, srv)]) srv.ID = some srv := by
  intro r
  induction r with
  | nil =>
    intro _
    show lookupSrv ((srv.ID, srv) :: []) srv.ID = some srv
    rw [lookupSrv_cons, if_pos rfl]
  | cons p r ih =>
    intro h
    rw [Has, lookupSrv_cons] at h
    by_cases hp : p.1 = srv.ID
    · rw [if_pos hp] at h
      simp at h
    · rw [if_neg hp] at h
      rw [List.cons_append, lookupSrv_cons, if_neg hp]
      exact ih h

theorem has_runOps_of_noRemoval :
    ∀ (ops : List Op) (r : Repo) (id : ServerID),
      Has r id = true → noRemovalOf r ops id = true → Has (runOps r ops) id = true
  | [], _, _, h, _ => h
  | op :: ops, r, id, h, hn => by
    rw [noRemovalOf, Bool.and_eq_true] at hn
    exact has_runOps_of_noRemoval ops (applyOp r op) id (has_applyOp_of_safe h hn.1) hn.2

/-! ### Claim C2 -/

/-- C2: after any sequence of Register, Remove and Prune operations the
store holds at most one binding per identity (its keys are nodup), and
a Register whose identity is already present replaces that binding in
place: the key set is unchanged, the identity now maps to the new
server value (all mutable fields and LastSeen come from it), and every
other identity is untouched. -/
theorem c2_identity_uniqueness :
    (∀ ops : List Op, keysNodup (runOps [] ops)) ∧
    (∀ (r : Repo) (srv : Server), Has r srv.ID = true →
      ((Register r srv).2.map Prod.fst = r.map Prod.fst ∧
       lookupSrv (Register r srv).2 srv.ID = some srv ∧
       ∀ id, id ≠ srv.ID → lookupSrv (Register r srv).2 id = lookupSrv r id)) := by
  constructor
  · intro ops
    exact keysNodup_runOps ops [] (by simp [keysNodup])
  · intro r srv h
    refine ⟨?_, ?_, ?_⟩
    · rw [Register_snd_of_has h, map_fst_mapReplace]
    · rw [Register_snd_of_has h]
      exact lookup_mapReplace srv.ID srv r h
    · intro id hne
      exact lookup_register_other hne

/-- Witness for C2 at concrete inputs. -/
theorem c2_identity_uniqueness_witness :
    keysNodup (runOps [] [Op.register srvA, Op.register srvA2, Op.remove srvB.ID,
      Op.prune 5000 10000]) ∧
    lookupSrv (Register repoAB srvA2).2 srvA2.ID = some srvA2 :=
  ⟨c2_identity_uniqueness.1 _, (c2_identity_uniqueness.2 repoAB srvA2 (by decide)).2.1⟩

/-! ### Claim C3 -/

/-- C3: the first Register of an identity absent from the store returns
existed = false, and after it any further Register of the same identity
returns existed = true as long as no intervening operation removes or
prune-evicts that identity. -/
theorem c3_existed_flag (r : Repo) (srv : Server) (h : Has r srv.ID = false) :
    (Register r srv).1 = false ∧
    ∀ (ops : List Op) (srv2 : Server), srv2.ID = srv.ID →
      noRemovalOf (Register r srv).2 ops srv.ID = true →
      (Register (runOps (Register r srv).2 ops) srv2).1 = true := by
  constructor
  · rw [Register_fst]
    exact h
  · intro ops srv2 hid hn
    rw [Register_fst, hid]
    have h1 : Has (Register r srv).2 srv.ID = true := by
      rw [Register_snd_of_not_has h]
      exact has_of_lookup (lookup_append_self srv r h)
    exact has_runOps_of_noRemoval ops _ srv.ID h1 hn

/-- Witness for C3 at concrete inputs. -/
theorem c3_existed_flag_witness :
    (Register [] srvA).1 = false ∧
    (Register (runOps (Register [] srvA).2 [Op.register srvB, Op.prune 5000 10000]) srvA2).1
      = true := by
  have h := c3_existed_flag [] srvA (by decide)
  exact ⟨h.1, h.2 [Op.register srvB, Op.prune 5000 10000] srvA2 (by decide) (by decide)⟩

/-! ### Claim C6 -/

/-- C6: Prune removes exactly the entries whose LastSeen is strictly
older than now minus the threshold: an identity maps to a server after
Prune precisely when it did before and that server's LastSeen is not
below the cutoff. -/
theorem c6_prune_exact (r : Repo) (th now : Int) (id : ServerID) (srv : Server)
    (hnd : keysNodup r) :
    lookupSrv (Prune r th now) id = some srv ↔
      lookupSrv r id = some srv ∧ ¬ srv.LastSeen < now - th := by
  rw [Prune, lookup_filter_iff hnd]
  simp

/-- Witness for C6: with threshold 1000 at instant 10000, the entry
last seen at 8000 (now - 2 * threshold) is pruned and the entry last
seen at 9750 (now - threshold / 4) remains. -/
theorem c6_prune_exact_witness :
    lookupSrv (Prune repoAB 1000 10000) srvB.ID = some srvB ∧
    lookupSrv (Prune repoAB 1000 10000) srvA.ID = none :=
  ⟨(c6_prune_exact repoAB 1000 10000 srvB.ID srvB (by decide)).mpr ⟨by decide, by decide⟩,
   by decide⟩

/-! ### Claim C7 -/

theorem filter_key_idem (r : Repo) (id : ServerID) :
    (r.filter (fun p => !(p.1 == id))).filter (fun p => !(p.1 == id))
      = r.filter (fun p => !(p.1 == id)) := by
  induction r with
  | nil => rfl
  | cons p r ih => by_cases hp : p.1 = id <;> simp [List.filter_cons, hp, ih]

/-- C7: Remove is idempotent: removing the same identity twice leaves
the store exactly as one removal does, and the second call reports
existed = false (it is a total function, so there is no error and no
panic to model). -/
theorem c7_remove_idempotent (r : Repo) (id : ServerID) :
    (Remove (Remove r id).2 id).2 = (Remove r id).2 ∧
    (Remove (Remove r id).2 id).1 = false := by
  constructor
  · exact filter_key_idem r id
  · have hnone : lookupSrv (Remove r id).2 id = none := by
      rw [lookupSrv_eq_none]
      intro p hp
      have := List.of_mem_filter hp
      simpa using this
    rw [Remove, Has, hnone]
    rfl

/-! ### Claim C10 -/

/-- C10: the prune cutoff is exclusive: an entry whose LastSeen equals
now minus the threshold exactly survives Prune (time.Time.Before is a
strict comparison). -/
theorem c10_prune_cutoff_exclusive (r : Repo) (th now : Int) (id : ServerID) (srv : Server)
    (hl : lookupSrv r id = some srv) (he : srv.LastSeen = now - th) :
    lookupSrv (Prune r th now) id = some srv :=
  lookup_filter_of_lookup hl (by simp [he])

/-- Witness for C10: LastSeen 9000 with now = 10000, threshold = 1000
sits exactly on the cutoff and survives. -/
theorem c10_prune_cutoff_exclusive_witness :
    lookupSrv (Prune [(srvEdge.ID, srvEdge)] 1000 10000) srvEdge.ID = some srvEdge :=
  c10_prune_cutoff_exclusive _ 1000 10000 srvEdge.ID srvEdge (by decide) (by decide)

/-! ### Decimal formatting lemmas -/

theorem uitoaAux_succ (fuel n : Nat) (acc : List Char) :
    uitoaAux (fuel + 1) n acc =
      if n < 10 then digitChar n :: acc
      else uitoaAux fuel (n / 10) (digitChar (n % 10) :: acc) := rfl

theorem uitoaAux_acc : ∀ (fuel n : Nat) (acc : List Char),
    uitoaAux fuel n acc = uitoaAux fuel n [] ++ acc
  | 0, _, _ => rfl
  | fuel + 1, n, acc => by
    rw [uitoaAux_succ, uitoaAux_succ]
    by_cases hn : n < 10
    · rw [if_pos hn, if_pos hn]
      rfl
    · rw [if_neg hn, if_neg hn]
      rw [uitoaAux_acc fuel (n / 10) (digitChar (n % 10) :: acc),
          uitoaAux_acc fuel (n / 10) [digitChar (n % 10)]]
      simp

theorem digitChar_toNat (m : Nat) (hm : m < 10) : (digitChar m).toNat = 48 + m := by
  interval_cases m <;> rfl

theorem digitChar_digit (m : Nat) (hm : m < 10) :
    48 ≤ (digitChar m).toNat ∧ (digitChar m).toNat ≤ 57 := by
  rw [digitChar_toNat m hm]
  omega

theorem uitoaAux_digits : ∀ (fuel n : Nat) (acc : List Char),
    (∀ c ∈ acc, 48 ≤ c.toNat ∧ c.toNat ≤ 57) →
    ∀ c ∈ uitoaAux fuel n acc, 48 ≤ c.toNat ∧ c.toNat ≤ 57
  | 0, _, _, hacc => hacc
  | fuel + 1, n, acc, hacc => by
    rw [uitoaAux_succ]
    by_cases hn : n < 10
    · rw [if_pos hn]
      intro c hc
      rcases List.mem_cons.mp hc with hc | hc
      · exact hc ▸ digitChar_digit n hn
      · exact hacc c hc
    · rw [if_neg hn]
      refine uitoaAux_digits fuel (n / 10) _ ?_
      intro c hc
      rcases List.mem_cons.mp hc with hc | hc
      · exact hc ▸ digitChar_digit (n % 10) (Nat.mod_lt n (by omega))
      · exact hacc c hc

theorem uitoa_digits (n : Nat) : ∀ c ∈ uitoa n, 48 ≤ c.toNat ∧ c.toNat ≤ 57 :=
  uitoaAux_digits 20 n [] (by intro c hc; simp at hc)

theorem uitoa_ne_nil (n : Nat) : uitoa n ≠ [] := by
  rw [uitoa, show (20 : Nat) = 19 + 1 from rfl, uitoaAux_succ]
  by_cases hn : n < 10
  · rw [if_pos hn]
    simp
  · rw [if_neg hn, uitoaAux_acc]
    simp

theorem dtoiAux_cons (c : Char) (cs : List Char) (n i : Nat) :
    dtoiAux (c :: cs) n i =
      if 48 ≤ c.toNat ∧ c.toNat ≤ 57 then
        if dtoiBig ≤ n * 10 + (c.toNat - 48) then (dtoiBig, i, false)
        else dtoiAux cs (n * 10 + (c.toNat - 48)) (i + 1)
      else if i = 0 then (0, 0, false) else (n, i, true) := rfl

theorem dtoiAux_uitoa : ∀ (fuel n : Nat), n < 10 ^ fuel →
    ∀ (rest : List Char) (a i : Nat),
      a * 10 ^ (uitoaAux fuel n []).length + n < dtoiBig →
      dtoiAux (uitoaAux fuel n [] ++ rest) a i
        = dtoiAux rest (a * 10 ^ (uitoaAux fuel n []).length + n) (i + (uitoaAux fuel n []).length)
  | 0, n, hn, rest, a, i, hb => by
    have h0 : n = 0 := by
      have : (10 : Nat) ^ 0 = 1 := rfl
      omega
    subst h0
    show dtoiAux rest a i = dtoiAux rest (a * 10 ^ 0 + 0) (i + 0)
    norm_num
  | fuel + 1, n, hn, rest, a, i, hb => by
    by_cases h10 : n < 10
    · rw [uitoaAux_succ, if_pos h10] at hb ⊢
      have hlen : ([digitChar n] : List Char).length = 1 := rfl
      rw [hlen] at hb ⊢
      rw [List.singleton_append, dtoiAux_cons, if_pos (digitChar_digit n h10),
          digitChar_toNat n h10]
      have hv : 48 + n - 48 = n := by omega
      rw [hv]
      rw [if_neg (by rw [pow_one] at hb; omega)]
      rw [pow_one]
    · rw [uitoaAux_succ, if_neg h10, uitoaAux_acc] at hb ⊢
      have hq : n / 10 < 10 ^ fuel := by
        refine Nat.div_lt_of_lt_mul ?_
        rw [pow_succ] at hn
        omega
      have hdm : 10 * (n / 10) + n % 10 = n := Nat.div_add_mod n 10
      have hlen : (uitoaAux fuel (n / 10) [] ++ [digitChar (n % 10)]).length
          = (uitoaAux fuel (n / 10) []).length + 1 := by
        rw [List.length_append]
        rfl
      rw [hlen] at hb ⊢
      have hys : a * 10 ^ ((uitoaAux fuel (n / 10) []).length + 1)
          = a * 10 ^ (uitoaAux fuel (n / 10) []).length * 10 := by
        rw [pow_succ, ← Nat.mul_assoc]
      rw [hys] at hb ⊢
      have hb2 : a * 10 ^ (uitoaAux fuel (n / 10) []).length + n / 10 < dtoiBig := by
        omega
      rw [List.append_assoc, List.singleton_append]
      rw [dtoiAux_uitoa fuel (n / 10) hq (digitChar (n % 10) :: rest) a i hb2]
      rw [dtoiAux_cons, if_pos (digitChar_digit (n % 10) (Nat.mod_lt n (by omega))),
          digitChar_toNat (n % 10) (Nat.mod_lt n (by omega))]
      have hv : 48 + n % 10 - 48 = n % 10 := by omega
      rw [hv]
      have heq : (a * 10 ^ (uitoaAux fuel (n / 10) []).length + n / 10) * 10 + n % 10
          = a * 10 ^ (uitoaAux fuel (n / 10) []).length * 10 + n := by
        omega
      rw [heq]
      rw [if_neg (by omega), Nat.add_assoc]

theorem foldl_uitoa : ∀ (fuel n : Nat), n < 10 ^ fuel → ∀ a : Nat,
    (uitoaAux fuel n []).foldl (fun acc d => acc * 10 + (d.toNat - 48)) a
      = a * 10 ^ (uitoaAux fuel n []).length + n
  | 0, n, hn, a => by
    have h0 : n = 0 := by
      have : (10 : Nat) ^ 0 = 1 := rfl
      omega
    subst h0
    simp [uitoaAux]
  | fuel + 1, n, hn, a => by
    by_cases h10 : n < 10
    · rw [uitoaAux_succ, if_pos h10]
      show a * 10 + ((digitChar n).toNat - 48) = a * 10 ^ ([digitChar n] : List Char).length + n
      rw [digitChar_toNat n h10]
      have hlen : ([digitChar n] : List Char).length = 1 := rfl
      rw [hlen, pow_one]
      omega
    · rw [uitoaAux_succ, if_neg h10, uitoaAux_acc]
      have hq : n / 10 < 10 ^ fuel := by
        refine Nat.div_lt_of_lt_mul ?_
        rw [pow_succ] at hn
        omega
      rw [List.foldl_append]
      rw [foldl_uitoa fuel (n / 10) hq a]
      show (a * 10 ^ (uitoaAux fuel (n / 10) []).length + n / 10) * 10
          + ((digitChar (n % 10)).toNat - 48) = _
      rw [digitChar_toNat (n % 10) (Nat.mod_lt n (by omega))]
      have hlen : (uitoaAux fuel (n / 10) [] ++ [digitChar (n % 10)]).length
          = (uitoaAux fuel (n / 10) []).length + 1 := by
        rw [List.length_append]
        rfl
      rw [hlen, pow_succ, ← Nat.mul_assoc]
      have hdm : 10 * (n / 10) + n % 10 = n := Nat.div_add_mod n 10
      omega

theorem dtoi_uitoa_prefix (o : Nat) (ho : o < dtoiBig) (rest : List Char)
    (hrest : headNotDigit rest) :
    dtoi (uitoa o ++ rest) = (o, (uitoa o).length, true) := by
  have hlt : o < 10 ^ 20 := lt_of_lt_of_le ho (by decide)
  have hb : 0 * 10 ^ (uitoaAux 20 o []).length + o < dtoiBig := by
    simpa using ho
  rw [dtoi, uitoa, dtoiAux_uitoa 20 o hlt rest 0 0 hb]
  have hzero : 0 * 10 ^ (uitoaAux 20 o []).length + o = o := by simp
  have hL : (uitoaAux 20 o []).length ≠ 0 := by
    intro h
    exact uitoa_ne_nil o (List.length_eq_zero.mp h)
  rw [hzero]
  rcases hrest with h | ⟨c, cs, hc, hcd⟩
  · subst h
    show (if (0 + (uitoaAux 20 o []).length) = 0 then ((0 : Nat), (0 : Nat), false)
          else (o, 0 + (uitoaAux 20 o []).length, true)) = (o, (uitoa o).length, true)
    rw [if_neg (by omega), Nat.zero_add]
    rfl
  · subst hc
    rw [dtoiAux_cons, if_neg hcd,
      if_neg (show ¬ (0 + (uitoaAux 20 o []).length = 0) by omega)]
    rw [Nat.zero_add]

/-! ### parseIPv4 round trip -/

theorem parseIPv4Go_succ (s : List Char) (k : Nat) (first : Bool) :
    parseIPv4Go s (k + 1) first =
      if s = [] then none
      else
        match (if first then some s else
                match s with
                | c :: rest => if c = '.' then some rest else none
                | [] => none) with
        | none => none
        | some s2 =>
          match dtoi s2 with
          | (n, c, ok) =>
            if ok = false ∨ 255 < n then none
            else
              match parseIPv4Go (s2.drop c) k false with
              | none => none
              | some rest => some (n :: rest) := rfl

theorem drop_len_append (l1 l2 : List Char) : (l1 ++ l2).drop l1.length = l2 := by
  induction l1 with
  | nil => rfl
  | cons x l1 ih => simpa using ih

theorem take_len_append (l1 l2 : List Char) : (l1 ++ l2).take l1.length = l1 := by
  induction l1 with
  | nil => rfl
  | cons x l1 ih => simpa using ih

theorem drop_append_cons (l1 : List Char) (c : Char) (l2 : List Char) :
    (l1 ++ c :: l2).drop (l1.length + 1) = l2 := by
  induction l1 with
  | nil => rfl
  | cons x l1 ih => simpa using ih

theorem parseIPv4Go_field (o : Nat) (ho : o ≤ 255) (rest : List Char)
    (hrest : headNotDigit rest) (k : Nat) :
    parseIPv4Go (uitoa o ++ rest) (k + 1) true
      = (parseIPv4Go rest k false).map (fun l => o :: l) := by
  have hne : ¬(uitoa o ++ rest = []) := by
    intro h
    exact uitoa_ne_nil o (List.append_eq_nil.mp h).1
  have hdt := dtoi_uitoa_prefix o (lt_of_le_of_lt ho (by decide)) rest hrest
  rw [parseIPv4Go_succ, if_neg hne]
  show (match dtoi (uitoa o ++ rest) with
        | (n, c, ok) =>
          if ok = false ∨ 255 < n then none
          else
            match parseIPv4Go ((uitoa o ++ rest).drop c) k false with
            | none => none
            | some l => some (n :: l)) = _
  rw [hdt]
  show (if (true = false ∨ 255 < o) then none
        else
          match parseIPv4Go ((uitoa o ++ rest).drop (uitoa o).length) k false with
          | none => none
          | some l => some (o :: l)) = _
  rw [if_neg (by simp; omega), drop_len_append]
  cases parseIPv4Go rest k false <;> rfl

theorem parseIPv4Go_dot (o : Nat) (ho : o ≤ 255) (rest : List Char)
    (hrest : headNotDigit rest) (k : Nat) :
    parseIPv4Go ('.' :: (uitoa o ++ rest)) (k + 1) false
      = (parseIPv4Go rest k false).map (fun l => o :: l) := by
  have hdt := dtoi_uitoa_prefix o (lt_of_le_of_lt ho (by decide)) rest hrest
  rw [parseIPv4Go_succ, if_neg (by simp)]
  show (match dtoi (uitoa o ++ rest) with
        | (n, c, ok) =>
          if ok = false ∨ 255 < n then none
          else
            match parseIPv4Go ((uitoa o ++ rest).drop c) k false with
            | none => none
            | some l => some (n :: l)) = _
  rw [hdt]
  show (if (true = false ∨ 255 < o) then none
        else
          match parseIPv4Go ((uitoa o ++ rest).drop (uitoa o).length) k false with
          | none => none
          | some l => some (o :: l)) = _
  rw [if_neg (by simp; omega), drop_len_append]
  cases parseIPv4Go rest k false <;> rfl

theorem headNotDigit_nil : headNotDigit [] := Or.inl rfl

theorem headNotDigit_dot (cs : List Char) : headNotDigit ('.' :: cs) :=
  Or.inr ⟨'.', cs, rfl, by decide⟩

theorem parseIPv4_dottedQuad (o1 o2 o3 o4 : Nat)
    (h1 : o1 ≤ 255) (h2 : o2 ≤ 255) (h3 : o3 ≤ 255) (h4 : o4 ≤ 255) :
    parseIPv4 (dottedQuad o1 o2 o3 o4) = mkIPv4 o1 o2 o3 o4 := by
  have e4 : parseIPv4Go ('.' :: uitoa o4) 1 false = some [o4] := by
    have h := parseIPv4Go_dot o4 h4 [] headNotDigit_nil 0
    rw [List.append_nil] at h
    rw [h]
    rfl
  have e3 : parseIPv4Go ('.' :: (uitoa o3 ++ '.' :: uitoa o4)) 2 false = some [o3, o4] := by
    rw [parseIPv4Go_dot o3 h3 ('.' :: uitoa o4) (headNotDigit_dot _) 1, e4]
    rfl
  have e2 : parseIPv4Go ('.' :: (uitoa o2 ++ '.' :: (uitoa o3 ++ '.' :: uitoa o4))) 3 false
      = some [o2, o3, o4] := by
    rw [parseIPv4Go_dot o2 h2 ('.' :: (uitoa o3 ++ '.' :: uitoa o4)) (headNotDigit_dot _) 2, e3]
    rfl
  have e1 : parseIPv4Go (dottedQuad o1 o2 o3 o4) 4 true = some [o1, o2, o3, o4] := by
    rw [dottedQuad,
        parseIPv4Go_field o1 h1 ('.' :: (uitoa o2 ++ '.' :: (uitoa o3 ++ '.' :: uitoa o4)))
          (headNotDigit_dot _) 3, e2]
    rfl
  rw [parseIPv4, e1]

theorem find?_append_none (p : Char → Bool) :
    ∀ l1 l2 : List Char, (∀ c ∈ l1, p c = false) → (l1 ++ l2).find? p = l2.find? p
  | [], _, _ => rfl
  | x :: l1, l2, h => by
    rw [List.cons_append]
    show (match p x with
          | true => some x
          | false => (l1 ++ l2).find? p) = l2.find? p
    rw [h x (List.mem_cons_self x l1)]
    exact find?_append_none p l1 l2 (fun c hc => h c (List.mem_cons_of_mem x hc))

theorem parseIP_dottedQuad (o1 o2 o3 o4 : Nat)
    (h1 : o1 ≤ 255) (h2 : o2 ≤ 255) (h3 : o3 ≤ 255) (h4 : o4 ≤ 255) :
    ParseIP (dottedQuad o1 o2 o3 o4) = mkIPv4 o1 o2 o3 o4 := by
  have hdigits : ∀ c ∈ uitoa o1, (c == '.' || c == ':') = false := by
    intro c hc
    have hd := uitoa_digits o1 c hc
    have hd1 : ¬ c = '.' := by
      intro he
      rw [he] at hd
      exact absurd hd.1 (by decide)
    have hd2 : ¬ c = ':' := by
      intro he
      rw [he] at hd
      exact absurd hd.2 (by decide)
    simp [hd1, hd2]
  have hfind : (dottedQuad o1 o2 o3 o4).find? (fun c => c == '.' || c == ':') = some '.' := by
    rw [dottedQuad,
      find?_append_none (fun c => c == '.' || c == ':') (uitoa o1)
        ('.' :: (uitoa o2 ++ '.' :: (uitoa o3 ++ '.' :: uitoa o4))) hdigits]
    rfl
  rw [ParseIP, hfind]
  show (if ('.' = '.') then parseIPv4 (dottedQuad o1 o2 o3 o4) else _) = _
  rw [if_pos rfl]
  exact parseIPv4_dottedQuad o1 o2 o3 o4 h1 h2 h3 h4

/-! ### SplitHostPort round trip -/

theorem lastIndexOf_eq_none (c : Char) : ∀ l : List Char, c ∉ l → lastIndexOf l c = none
  | [], _ => rfl
  | x :: xs, h => by
    have hxs := lastIndexOf_eq_none c xs (fun hm => h (List.mem_cons_of_mem x hm))
    have hx : ¬ x = c := fun he => h (he ▸ List.mem_cons_self x xs)
    show (match lastIndexOf xs c with
          | some j => some (j + 1)
          | none => if x = c then some 0 else none) = none
    rw [hxs, if_neg hx]

theorem lastIndexOf_sep (sep : Char) (p : List Char) (hp : sep ∉ p) :
    ∀ h : List Char, sep ∉ h → lastIndexOf (h ++ sep :: p) sep = some h.length
  | [], _ => by
    show (match lastIndexOf p sep with
          | some j => some (j + 1)
          | none => if sep = sep then some 0 else none) = some 0
    rw [lastIndexOf_eq_none sep p hp, if_pos rfl]
  | x :: h, hh => by
    have ih := lastIndexOf_sep sep p hp h (fun hm => hh (List.mem_cons_of_mem x hm))
    show (match lastIndexOf (h ++ sep :: p) sep with
          | some j => some (j + 1)
          | none => if x = sep then some 0 else none) = some (x :: h).length
    rw [ih]
    rfl

theorem splitHostPort_roundtrip (host port : List Char) (hne : host ≠ [])
    (hhost : ∀ c ∈ host, 46 ≤ c.toNat ∧ c.toNat ≤ 57)
    (hport : ∀ c ∈ port, 48 ≤ c.toNat ∧ c.toNat ≤ 57) :
    SplitHostPort (host ++ ':' :: port) = .ok (host, port) := by
  have hch : ':' ∉ host := by
    intro hm
    exact absurd (hhost ':' hm).2 (by decide)
  have hcp : ':' ∉ port := by
    intro hm
    exact absurd (hport ':' hm).2 (by decide)
  have hli := lastIndexOf_sep ':' port hcp host hch
  have hhead : ¬ (host ++ ':' :: port).headD ' ' = '[' := by
    cases host with
    | nil => exact absurd rfl hne
    | cons hc ht =>
      show ¬ hc = '['
      intro he
      have := (hhost hc (List.mem_cons_self hc ht)).2
      rw [he] at this
      exact absurd this (by decide)
  have hnobl : '[' ∉ host ++ ':' :: port := by
    intro hm
    rcases List.mem_append.mp hm with hm | hm
    · exact absurd (hhost '[' hm).2 (by decide)
    · rcases List.mem_cons.mp hm with hm | hm
      · exact absurd hm (by decide)
      · exact absurd (hport '[' hm).2 (by decide)
  have hnobr : ']' ∉ host ++ ':' :: port := by
    intro hm
    rcases List.mem_append.mp hm with hm | hm
    · exact absurd (hhost ']' hm).2 (by decide)
    · rcases List.mem_cons.mp hm with hm | hm
      · exact absurd hm (by decide)
      · exact absurd (hport ']' hm).2 (by decide)
  have htake : (host ++ ':' :: port).take host.length = host := by
    have := take_len_append host (':' :: port)
    exact this
  have hctake : ':' ∉ (host ++ ':' :: port).take host.length := by
    rw [htake]
    exact hch
  rw [SplitHostPort, hli]
  show (if (host ++ ':' :: port).headD ' ' = '[' then _ else _) = _
  rw [if_neg hhead, if_neg hctake, if_neg hnobl, if_neg hnobr, htake, drop_append_cons]

/-! ### Atoi and itoa -/

theorem Atoi_uitoa (n : Nat) (h : n ≤ maxInt64) : Atoi (uitoa n) = .ok (n : Int) := by
  obtain ⟨c, cs, hcs⟩ : ∃ c cs, uitoa n = c :: cs := by
    cases hu : uitoa n with
    | nil => exact absurd hu (uitoa_ne_nil n)
    | cons c cs => exact ⟨c, cs, rfl⟩
  have hcd : 48 ≤ c.toNat ∧ c.toNat ≤ 57 :=
    uitoa_digits n c (hcs ▸ List.mem_cons_self c cs)
  have hsign : ¬(c = '-' ∨ c = '+') := by
    rintro (he | he) <;> rw [he] at hcd <;> exact absurd hcd.1 (by decide)
  have hall : (c :: cs).all (fun d => decide (48 ≤ d.toNat ∧ d.toNat ≤ 57)) = true := by
    rw [List.all_eq_true]
    intro d hd
    rw [decide_eq_true_eq]
    exact uitoa_digits n d (hcs ▸ hd)
  have hfold : (c :: cs).foldl (fun a d => a * 10 + (d.toNat - 48)) 0 = n := by
    rw [← hcs, uitoa]
    have hlt : n < 10 ^ 20 := lt_of_le_of_lt h (by decide)
    rw [foldl_uitoa 20 n hlt 0]
    simp
  have hnm : ¬ c = '-' := fun he => hsign (Or.inl he)
  rw [hcs]
  simp only [Atoi, if_neg hsign, List.cons_ne_nil, if_false, hall, if_true, hfold,
    if_neg hnm]
  rw [if_neg (show ¬ maxInt64 < n by omega)]

theorem itoa_nonneg (p : Int) (hp : 0 ≤ p) : itoa p = uitoa p.toNat := by
  rw [itoa, if_neg (by omega)]

/-! ### ipString and JoinHostPort on IPv4 addresses -/

theorem ipTo4_mkIPv4 (a b c d : Nat) : ipTo4 (mkIPv4 a b c d) = [a, b, c, d] := rfl

theorem ipTo4_quad (a b c d : Nat) : ipTo4 [a, b, c, d] = [a, b, c, d] := rfl

theorem ipString_mkIPv4 (a b c d : Nat) :
    ipString (mkIPv4 a b c d) = dottedQuad a b c d := by
  have h0 : ¬ ((mkIPv4 a b c d).length = 0) := by simp [mkIPv4, v4in6lead]
  have h4 : (ipTo4 (mkIPv4 a b c d)).length = 4 := by
    rw [ipTo4_mkIPv4]
    rfl
  unfold ipString
  rw [if_neg h0, if_pos h4, ipTo4_mkIPv4]
  simp [dottedQuad]

theorem ipString_quad (a b c d : Nat) :
    ipString [a, b, c, d] = dottedQuad a b c d := by
  have h0 : ¬ (([a, b, c, d] : GoIP).length = 0) := by simp
  have h4 : (ipTo4 [a, b, c, d]).length = 4 := rfl
  unfold ipString
  rw [if_neg h0, if_pos h4, ipTo4_quad]
  simp [dottedQuad]

theorem joinHostPort_no_colon (host port : List Char) (h : ':' ∉ host) :
    JoinHostPort host port = host ++ ':' :: port := by
  rw [JoinHostPort, if_neg h]

theorem dottedQuad_chars (o1 o2 o3 o4 : Nat) :
    ∀ c ∈ dottedQuad o1 o2 o3 o4, 46 ≤ c.toNat ∧ c.toNat ≤ 57 := by
  have hd : ∀ n : Nat, ∀ c ∈ uitoa n, 46 ≤ c.toNat ∧ c.toNat ≤ 57 := by
    intro n c hc
    have := uitoa_digits n c hc
    omega
  intro c hc
  rw [dottedQuad] at hc
  simp only [List.mem_append, List.mem_cons] at hc
  rcases hc with hc | hc | hc | hc | hc | hc | hc
  · exact hd o1 c hc
  · subst hc
    decide
  · exact hd o2 c hc
  · subst hc
    decide
  · exact hd o3 c hc
  · subst hc
    decide
  · exact hd o4 c hc

theorem dottedQuad_ne_nil (o1 o2 o3 o4 : Nat) : dottedQuad o1 o2 o3 o4 ≠ [] := by
  rw [dottedQuad]
  intro h
  exact uitoa_ne_nil o1 (List.append_eq_nil.mp h).1

theorem dottedQuad_no_colon (o1 o2 o3 o4 : Nat) : ':' ∉ dottedQuad o1 o2 o3 o4 := by
  intro hm
  exact absurd (dottedQuad_chars o1 o2 o3 o4 ':' hm).2 (by decide)

/-! ### Claim C1 -/

/-- C1 counterexample: the address 1.2.3.4:8080 stored in the 4-byte
net.IP representation is valid (IPv4, in-range port), but parsing its
canonical string yields the 16-byte v4-mapped representation, which is
a different Go value: the round trip does not return the same Address. -/
theorem c1_claim_counterexample :
    ServerAddress.Validate addr4byte = .ok () ∧
    ParseServerAddress (ServerAddress.String addr4byte)
      = .ok { IP := mkIPv4 1 2 3 4, Port := 8080 } ∧
    ¬ ParseServerAddress (ServerAddress.String addr4byte) = .ok addr4byte :=
  ⟨by decide, by decide, by decide⟩

/-- C1 amended: for a valid address whose IP is stored in the 16-byte
form that ParseIP itself produces (the only form arising inside the
program), the round trip ParseServerAddress (a.String()) returns
exactly a with no error; a valid address in the 4-byte form
round-trips to the v4-mapped 16-byte address with the same octets and
port, which is equal to the original under net.IP.Equal but not
structurally. Octet bounds are Go's byte invariant; the port range is
the validity assumption. -/
theorem c1_roundtrip_amended (o1 o2 o3 o4 : Nat) (p : Int)
    (h1 : o1 ≤ 255) (h2 : o2 ≤ 255) (h3 : o3 ≤ 255) (h4 : o4 ≤ 255)
    (hlo : portRangeMin ≤ p) (hhi : p ≤ portRangeMax) :
    ServerAddress.Validate { IP := mkIPv4 o1 o2 o3 o4, Port := p } = .ok () ∧
    ServerAddress.Validate { IP := [o1, o2, o3, o4], Port := p } = .ok () ∧
    ParseServerAddress (ServerAddress.String { IP := mkIPv4 o1 o2 o3 o4, Port := p })
      = .ok { IP := mkIPv4 o1 o2 o3 o4, Port := p } ∧
    ParseServerAddress (ServerAddress.String { IP := [o1, o2, o3, o4], Port := p })
      = .ok { IP := mkIPv4 o1 o2 o3 o4, Port := p } ∧
    goIPEqual [o1, o2, o3, o4] (mkIPv4 o1 o2 o3 o4) = true := by
  have hp0 : (0 : Int) ≤ p := le_trans (by decide) hlo
  have hhi65535 : p ≤ 65535 := le_trans hhi (by decide)
  have hptn : p.toNat ≤ maxInt64 := by
    show p.toNat ≤ 9223372036854775807
    omega
  have hrange : ¬(p < portRangeMin ∨ portRangeMax < p) := by
    push_neg
    exact ⟨hlo, hhi⟩
  have hval16 : ServerAddress.Validate { IP := mkIPv4 o1 o2 o3 o4, Port := p } = .ok () := by
    show (if ipTo4 (mkIPv4 o1 o2 o3 o4) = [] then _ else _) = _
    rw [ipTo4_mkIPv4]
    rw [if_neg (by simp)]
    show (if p < portRangeMin ∨ portRangeMax < p then _ else _) = _
    rw [if_neg hrange]
  have hval4 : ServerAddress.Validate { IP := [o1, o2, o3, o4], Port := p } = .ok () := by
    show (if ipTo4 [o1, o2, o3, o4] = [] then _ else _) = _
    rw [ipTo4_quad]
    rw [if_neg (by simp)]
    show (if p < portRangeMin ∨ portRangeMax < p then _ else _) = _
    rw [if_neg hrange]
  have hstr16 : ServerAddress.String { IP := mkIPv4 o1 o2 o3 o4, Port := p }
      = dottedQuad o1 o2 o3 o4 ++ ':' :: uitoa p.toNat := by
    show JoinHostPort (ipString (mkIPv4 o1 o2 o3 o4)) (itoa p) = _
    rw [ipString_mkIPv4, itoa_nonneg p hp0,
      joinHostPort_no_colon _ _ (dottedQuad_no_colon o1 o2 o3 o4)]
  have hstr4 : ServerAddress.String { IP := [o1, o2, o3, o4], Port := p }
      = dottedQuad o1 o2 o3 o4 ++ ':' :: uitoa p.toNat := by
    show JoinHostPort (ipString [o1, o2, o3, o4]) (itoa p) = _
    rw [ipString_quad, itoa_nonneg p hp0,
      joinHostPort_no_colon _ _ (dottedQuad_no_colon o1 o2 o3 o4)]
  have hatoi : Atoi (uitoa p.toNat) = .ok p := by
    rw [Atoi_uitoa p.toNat hptn]
    congr 1
    omega
  have hsplit := splitHostPort_roundtrip (dottedQuad o1 o2 o3 o4) (uitoa p.toNat)
    (dottedQuad_ne_nil o1 o2 o3 o4) (dottedQuad_chars o1 o2 o3 o4) (uitoa_digits p.toNat)
  have hparse : ParseServerAddress (dottedQuad o1 o2 o3 o4 ++ ':' :: uitoa p.toNat)
      = .ok { IP := mkIPv4 o1 o2 o3 o4, Port := p } := by
    simp only [ParseServerAddress, hsplit, hatoi,
      parseIP_dottedQuad o1 o2 o3 o4 h1 h2 h3 h4]
  have hgoeq : goIPEqual [o1, o2, o3, o4] (mkIPv4 o1 o2 o3 o4) = true := by
    simp [goIPEqual, mkIPv4, v4in6lead, isZeros]
  exact ⟨hval16, hval4, by rw [hstr16]; exact hparse, by rw [hstr4]; exact hparse, hgoeq⟩

/-- Witness for C1 (amended) at 10.0.0.5:30000. -/
theorem c1_roundtrip_amended_witness :
    ParseServerAddress (ServerAddress.String { IP := mkIPv4 10 0 0 5, Port := 30000 })
      = .ok { IP := mkIPv4 10 0 0 5, Port := 30000 } :=
  (c1_roundtrip_amended 10 0 0 5 30000 (by decide) (by decide) (by decide) (by decide)
    (by decide) (by decide)).2.2.1

/-! ### Claim C9 -/

/-- C9: ParseServerAddress succeeds on any host:port input whose split
succeeds and whose port is numeric, with the IP being whatever ParseIP
returned — a host that is not a parseable IP yields the nil IP with no
error, and only ServerAddress.Validate later rejects that address. -/
theorem c9_parse_accepts_non_ip_hosts (s host rawPort : List Char) (n : Int)
    (hs : SplitHostPort s = .ok (host, rawPort))
    (hn : Atoi rawPort = .ok n) :
    ParseServerAddress s = .ok { IP := ParseIP host, Port := n } ∧
    (ParseIP host = [] →
      ServerAddress.Validate { IP := ParseIP host, Port := n }
        = .error "IP is not a valid IPv4 address".data) := by
  constructor
  · simp only [ParseServerAddress, hs, hn]
  · intro h0
    rw [h0]
    rfl

/-- Witness for C9 at the non-IP host example.com with port 8080. -/
theorem c9_parse_accepts_non_ip_hosts_witness :
    ParseServerAddress "example.com:8080".data
      = .ok { IP := ParseIP "example.com".data, Port := 8080 } ∧
    ParseIP "example.com".data = [] ∧
    ServerAddress.Validate { IP := ParseIP "example.com".data, Port := 8080 }
      = .error "IP is not a valid IPv4 address".data := by
  have h := c9_parse_accepts_non_ip_hosts "example.com:8080".data "example.com".data
    "8080".data 8080 (by decide) (by decide)
  exact ⟨h.1, by decide, h.2 (by decide)⟩

/-! ### Handler lemmas -/

theorem validate_preserves_addr {s s2 : Server} (h : Server.Validate s = .ok s2) :
    s2.ServerAddress = s.ServerAddress := by
  unfold Server.Validate at h
  cases hv : ServerAddress.Validate s.ServerAddress with
  | error e =>
    rw [hv] at h
    cases h
  | ok u =>
    rw [hv] at h
    by_cases hc : (trimSpace s.Name).length < nameLengthMin ∨
        nameLengthMax < (trimSpace s.Name).length
    · rw [if_pos hc] at h
      cases h
    · rw [if_neg hc] at h
      cases h
      rfl

theorem handleUpdate_mismatch_snd (repo : Repo) (param remote : List Char)
    (body : Except (List Char) Server) (now : Int) (serverAddr : ServerAddress)
    (hparse : ParseServerAddress param = .ok serverAddr)
    (hmm : goIPEqual serverAddr.IP (requestAddrOf remote).IP = false) :
    (HandleUpdate repo param remote body now).2 = repo := by
  unfold HandleUpdate
  rw [hparse]
  cases hv : Server.Validate
      { (match body with | .ok s => s | .error _ => zeroServer) with
        ServerAddress := serverAddr, LastSeen := now } with
  | error e => simp [hv]
  | ok s2 =>
    have haddr : s2.ServerAddress = serverAddr := validate_preserves_addr hv
    simp [hv, haddr, hmm]

theorem handleRegisterPong_mismatch_snd (repo : Repo) (serverAddr : ServerAddress)
    (remote : List Char) (body : Except (List Char) Server) (now : Int)
    (hmm : goIPEqual serverAddr.IP (requestAddrOf remote).IP = false) :
    (HandleRegisterPong repo serverAddr remote body now).2 = repo := by
  unfold HandleRegisterPong
  cases hv : Server.Validate
      { (match body with | .ok s => s | .error _ => zeroServer) with
        ServerAddress := serverAddr, LastSeen := now } with
  | error e => simp [hv]
  | ok s2 =>
    have haddr : s2.ServerAddress = serverAddr := validate_preserves_addr hv
    simp [hv, haddr, hmm]

theorem readResponse_pong : readResponse pongBytes = pongBytes := rfl

/-! ### Claim C4 -/

/-- C4: a first-time registration (identity absent) whose probe fails —
the read times out, or the response bytes differ from pong — answers
only the corresponding probe error (504 GatewayTimeout, or 406 bad
ping) and leaves the store unchanged, so no entry for the identity
exists afterward. -/
theorem c4_probe_gating (repo : Repo) (param remote : List Char)
    (body : Except (List Char) Server) (now : Int) (serverAddr : ServerAddress)
    (data : List Nat)
    (hparse : ParseServerAddress param = .ok serverAddr)
    (hnew : Has repo serverAddr.String = false) :
    (HandleRegister repo param remote body now .readFailed
      = ([⟨504, "no ping response received, is your port not properly forwarded?".data⟩],
         repo)) ∧
    Has (HandleRegister repo param remote body now .readFailed).2 serverAddr.String = false ∧
    (readResponse data ≠ pongBytes →
      HandleRegister repo param remote body now (.response data)
        = ([⟨406, "Bad ping response".data⟩], repo) ∧
      Has (HandleRegister repo param remote body now (.response data)).2
        serverAddr.String = false) := by
  have h1 : HandleRegister repo param remote body now .readFailed
      = ([⟨504, "no ping response received, is your port not properly forwarded?".data⟩],
         repo) := by
    unfold HandleRegister
    rw [hparse]
    simp [hnew]
  refine ⟨h1, by rw [h1]; exact hnew, ?_⟩
  intro hbad
  have h2 : HandleRegister repo param remote body now (.response data)
      = ([⟨406, "Bad ping response".data⟩], repo) := by
    unfold HandleRegister
    rw [hparse]
    simp [hnew, hbad]
  exact ⟨h2, by rw [h2]; exact hnew⟩

/-- Witness for C4: empty store, probe timeout and a non-pong datagram
at 1.2.3.4:2000. -/
theorem c4_probe_gating_witness :
    HandleRegister [] "1.2.3.4:2000".data "1.2.3.4:9".data (.ok srvGoodName) 7 .readFailed
      = ([⟨504, "no ping response received, is your port not properly forwarded?".data⟩],
         []) ∧
    HandleRegister [] "1.2.3.4:2000".data "1.2.3.4:9".data (.ok srvGoodName) 7
        (.response [1, 2, 3])
      = ([⟨406, "Bad ping response".data⟩], []) := by
  have h := c4_probe_gating [] "1.2.3.4:2000".data "1.2.3.4:9".data (.ok srvGoodName) 7
    { IP := mkIPv4 1 2 3 4, Port := 2000 } [1, 2, 3] (by decide) (by decide)
  exact ⟨h.1, (h.2.2 (by decide)).1⟩

/-! ### Claim C8 -/

/-- C8: with a first-contact identity, a received datagram passes the
reachability check exactly when its first four bytes are the pong
acknowledgement: the handler proceeds to the registration body on a
match and answers 406 bad ping otherwise; the zero-padded 4-byte
buffer check of the code agrees with taking the first four datagram
bytes. -/
theorem c8_pong_check (repo : Repo) (param remote : List Char)
    (body : Except (List Char) Server) (now : Int) (serverAddr : ServerAddress)
    (data : List Nat)
    (hparse : ParseServerAddress param = .ok serverAddr)
    (hnew : Has repo serverAddr.String = false) :
    (HandleRegister repo param remote body now (.response data)
      = if data.take 4 = pongBytes
        then HandleRegisterPong repo serverAddr remote body now
        else ([⟨406, "Bad ping response".data⟩], repo)) ∧
    (readResponse data = pongBytes ↔ data.take 4 = pongBytes) := by
  have hiff : readResponse data = pongBytes ↔ data.take 4 = pongBytes := by
    rcases data with _ | ⟨a, _ | ⟨b, _ | ⟨c, _ | ⟨d, rest⟩⟩⟩⟩
    · decide
    · simp [readResponse, pongBytes]
    · simp [readResponse, pongBytes]
    · simp [readResponse, pongBytes]
    · simp [readResponse, pongBytes, List.take_succ_cons]
  refine ⟨?_, hiff⟩
  unfold HandleRegister
  rw [hparse]
  by_cases hpong : readResponse data = pongBytes
  · rw [if_pos (hiff.mp hpong)]
    simp [hnew, hpong]
  · rw [if_neg (fun hc => hpong (hiff.mpr hc))]
    simp [hnew, hpong]

/-- Witness for C8: a datagram with wrong leading bytes is rejected
with the bad-ping outcome. -/
theorem c8_pong_check_witness :
    HandleRegister [] "1.2.3.4:2000".data "1.2.3.4:9".data (.ok srvGoodName) 7
        (.response [1, 2, 3, 4, 5])
      = ([⟨406, "Bad ping response".data⟩], []) := by
  have h := c8_pong_check [] "1.2.3.4:2000".data "1.2.3.4:9".data (.ok srvGoodName) 7
    { IP := mkIPv4 1 2 3 4, Port := 2000 } [1, 2, 3, 4, 5] (by decide) (by decide)
  rw [h.1]
  decide

/-! ### Claim C5 -/

/-- C5 counterexample: a registration claiming 1.2.3.4 (the server_id
parameter) from observed source 9.9.9.9, with a successful probe but a
too-short DisplayName, is rejected with the InvalidEntry outcome (400,
name length message) — not with SourceMismatch (403) — because the
handler validates fields before comparing IPs. The first conjunct
shows the claimed and observed IPs really differ. -/
theorem c5_claim_counterexample :
    goIPEqual (mkIPv4 1 2 3 4) (requestAddrOf "9.9.9.9:5555".data).IP = false ∧
    HandleRegister [] "1.2.3.4:30000".data "9.9.9.9:5555".data (.ok srvBadName) 100
        (.response pongBytes)
      = ([⟨400, "name length must be within range of 3-32".data⟩], []) :=
  ⟨by decide, by decide⟩

/-- C5 amended: a registration whose claimed IP differs from the
observed source IP never mutates the store and is always rejected, but
the SourceMismatch outcome is produced only when the rest of the
payload is valid: main.go's validateEntry checks the source first and
reports a single generic invalid outcome, while the httpapi handler
answers 403 SourceMismatch only after field validation passes (an
invalid payload yields the InvalidEntry outcome instead, and a failed
first-contact probe yields the probe outcome). -/
theorem c5_source_mismatch_amended :
    (∀ sourceIP jname jip jport : List Char, sourceIP ≠ jip →
      validateEntry sourceIP jname jip jport = false) ∧
    (∀ (repo : Repo) (param remote : List Char) (body : Except (List Char) Server)
       (now : Int) (probe : ProbeResult) (serverAddr : ServerAddress),
      ParseServerAddress param = .ok serverAddr →
      goIPEqual serverAddr.IP (requestAddrOf remote).IP = false →
      (HandleRegister repo param remote body now probe).2 = repo) ∧
    (∀ (repo : Repo) (param remote : List Char) (srv srv2 : Server) (now : Int)
       (serverAddr : ServerAddress),
      ParseServerAddress param = .ok serverAddr →
      Has repo serverAddr.String = false →
      Server.Validate { srv with ServerAddress := serverAddr, LastSeen := now } = .ok srv2 →
      goIPEqual serverAddr.IP (requestAddrOf remote).IP = false →
      HandleRegister repo param remote (.ok srv) now (.response pongBytes)
        = ([⟨403, "request IP address does not match client IP address".data⟩], repo)) := by
  refine ⟨?_, ?_, ?_⟩
  · intro sourceIP jname jip jport h
    unfold validateEntry
    rw [if_pos h]
  · intro repo param remote body now probe serverAddr hparse hmm
    unfold HandleRegister
    rw [hparse]
    by_cases hh : Has repo serverAddr.String
    · simp only [hh, if_true]
      exact handleUpdate_mismatch_snd repo param remote body now serverAddr hparse hmm
    · simp only [hh, if_false, Bool.false_eq_true]
      cases probe with
      | dialFailed => rfl
      | readFailed => rfl
      | response data =>
        by_cases hpong : readResponse data = pongBytes
        · simp only [hpong, if_true]
          exact handleRegisterPong_mismatch_snd repo serverAddr remote body now hmm
        · simp [hpong]
  · intro repo param remote srv srv2 now serverAddr hparse hnew hval hmm
    unfold HandleRegister
    rw [hparse]
    simp only [hnew, if_false, Bool.false_eq_true, readResponse_pong, if_true]
    unfold HandleRegisterPong
    have haddr : srv2.ServerAddress = serverAddr := validate_preserves_addr hval
    simp [hval, haddr, hmm]

/-- Witness for C5 (amended) at concrete inputs: the generic main.go
rejection on mismatched source, an unchanged store through the probing
handler, and the 403 outcome for a valid payload. -/
theorem c5_source_mismatch_amended_witness :
    validateEntry "9.9.9.9".data "My Server".data "1.2.3.4".data "30000".data = false ∧
    (HandleRegister repoAB "1.2.3.4:30000".data "9.9.9.9:5555".data (.ok srvBadName) 100
      (.response pongBytes)).2 = repoAB ∧
    HandleRegister [] "1.2.3.4:30000".data "9.9.9.9:5555".data (.ok srvGoodName) 100
        (.response pongBytes)
      = ([⟨403, "request IP address does not match client IP address".data⟩], []) := by
  refine ⟨c5_source_mismatch_amended.1 _ _ _ _ (by decide), ?_, ?_⟩
  · exact c5_source_mismatch_amended.2.1 repoAB "1.2.3.4:30000".data "9.9.9.9:5555".data
      (.ok srvBadName) 100 (.response pongBytes) { IP := mkIPv4 1 2 3 4, Port := 30000 }
      (by decide) (by decide)
  · exact c5_source_mismatch_amended.2.2 [] "1.2.3.4:30000".data "9.9.9.9:5555".data
      srvGoodName
      { ServerAddress := { IP := mkIPv4 1 2 3 4, Port := 30000 }
      , Name := "Good Server".data, GameVersion := 1, IsJoinable := true, LastSeen := 100 }
      100 { IP := mkIPv4 1 2 3 4, Port := 30000 } (by decide) (by decide) (by decide)
      (by decide)

end Fugitive
